import Mathlib

/-!
Verification of the `onedatarestfs` adapter (PyFilesystem implementation of a
Onedata REST filesystem).  The Python sources
`fs/onedatarestfs/_onedatarestfs.py` and
`fs/onedatarestfs/onedata_file_client.py` are shallowly embedded below:
pure translation logic becomes Lean functions, HTTP traffic is modelled by an
explicit list of issued requests, and the remote server is an oracle argument
supplying the responses.  Python exceptions are modelled with `Except`.
-/

namespace OnedataRestFS

/-! ## Error translation (`to_fserror`) -/

/-- Kinds of `fs.errors` exceptions raised by the adapter. -/
inductive FSErrorKind where
  | resourceNotFound
  | fsErrorGeneric
  | fileExists
  | permissionDenied
  | directoryExpected
  | invalidCharsInPath
  | resourceInvalid
  | fileExpected
  deriving DecidableEq, Repr

/-- Model of `OnedataRESTError`: the HTTP status code, the parsed error
category (`error['id']` of the response body, absent when the body could not
be parsed) and the `errno` entry of `error['details']` (absent when the body
could not be parsed or has no such key). -/
structure OnedataRESTError where
  http_code : Nat
  error_category : Option String
  errno : Option String
  deriving DecidableEq, Repr

/-- Models `to_fserror` of `_onedatarestfs.py`.  The source checks the HTTP
status code first, then the `posix` category (each errno test returning
immediately), and finally the `badValueFilePath` category; when nothing
matches the function falls off the end and returns `None` (modelled as
`Except.ok none`).  When the category is `posix` but the error details carry
no `errno` key, the subscript `e.error_details['errno']` itself raises
(modelled as `Except.error ()`). -/
def to_fserror (e : OnedataRESTError) (request : Option String) :
    Except Unit (Option FSErrorKind) :=
  if e.http_code = 404 then Except.ok (some FSErrorKind.resourceNotFound)
  else if e.http_code = 416 then Except.ok (some FSErrorKind.fsErrorGeneric)
  else
    match
      (if e.error_category = some "posix" then
        match e.errno with
        | none => Except.error ()
        | some er =>
          if er = "enoent" then Except.ok (some FSErrorKind.resourceNotFound)
          else if er = "eexist" then Except.ok (some FSErrorKind.fileExists)
          else if er = "eaccess" then Except.ok (some FSErrorKind.permissionDenied)
          else if er = "eperm" then Except.ok (some FSErrorKind.permissionDenied)
          else if er = "enotdir" then
            if request = some "get_attributes" then
              Except.ok (some FSErrorKind.resourceNotFound)
            else Except.ok (some FSErrorKind.directoryExpected)
          else Except.ok none
      else Except.ok none : Except Unit (Option FSErrorKind)) with
    | Except.error u => Except.error u
    | Except.ok (some r) => Except.ok (some r)
    | Except.ok none =>
      if e.error_category = some "badValueFilePath" then
        Except.ok (some FSErrorKind.invalidCharsInPath)
      else Except.ok none

/-- The error translation table exactly as the specification claim words it,
with the rules tried in the order the claim lists them.  For a `posix` error
whose details carry no `errno` the claim says nothing; that case mirrors the
source (the subscript raises). -/
def specErrorMapping (e : OnedataRESTError) (request : Option String) :
    Except Unit (Option FSErrorKind) :=
  if e.http_code = 404 then Except.ok (some FSErrorKind.resourceNotFound)
  else if e.http_code = 416 then Except.ok (some FSErrorKind.fsErrorGeneric)
  else if e.error_category = some "posix" then
    match e.errno with
    | none => Except.error ()
    | some er =>
      if er = "enoent" then Except.ok (some FSErrorKind.resourceNotFound)
      else if er = "eexist" then Except.ok (some FSErrorKind.fileExists)
      else if er = "eaccess" ∨ er = "eperm" then
        Except.ok (some FSErrorKind.permissionDenied)
      else if er = "enotdir" then
        if request = some "get_attributes" then
          Except.ok (some FSErrorKind.resourceNotFound)
        else Except.ok (some FSErrorKind.directoryExpected)
      else Except.ok none
  else if e.error_category = some "badValueFilePath" then
    Except.ok (some FSErrorKind.invalidCharsInPath)
  else Except.ok none

/-- Python exceptions that can escape the adapter operations. -/
inductive PyExn where
  | ioError (msg : String)
  | fsErr (k : FSErrorKind)
  | typeErr
  | keyErr
  | restError (e : OnedataRESTError)
  deriving DecidableEq, Repr

/-- Models executing the Python statement `raise to_fserror(...)` given the
evaluation of `to_fserror`: if the translation itself raised, that exception
propagates; if it returned `None`, `raise None` raises `TypeError`; otherwise
the returned filesystem error is raised. -/
def raiseTranslated (o : Except Unit (Option FSErrorKind)) : PyExn :=
  match o with
  | Except.error _ => PyExn.keyErr
  | Except.ok none => PyExn.typeErr
  | Except.ok (some k) => PyExn.fsErr k

/-! ## Path splitting (`OnedataRESTFS._split_space_path`) -/

/-- Characters stripped by Python `str.strip()` (the ASCII whitespace set). -/
def pyIsSpace (c : Char) : Bool :=
  c == ' ' || c == '\t' || c == '\n' || c == '\x0d' || c == '\x0b' || c == '\x0c'

/-- Removes leading slashes, as `fs.path.relpath` does. -/
def lstripSlashAux : List Char → List Char
  | [] => []
  | c :: rest => if c = '/' then lstripSlashAux rest else c :: rest

/-- Models `fs.path.relpath`. -/
def relpath (s : String) : String := String.mk (lstripSlashAux s.data)

/-- Splitting a character list on the slash character, with Python semantics:
splitting the empty string yields one empty token, and adjacent slashes yield
empty tokens. -/
def splitSlashAux : List Char → List (List Char)
  | [] => [[]]
  | c :: rest =>
    let r := splitSlashAux rest
    if c = '/' then [] :: r
    else
      match r with
      | [] => [[c]]
      | t :: ts => (c :: t) :: ts

/-- Models the Python expression `s.split(slash)` for the slash separator. -/
def pySplitSlash (s : String) : List String :=
  (splitSlashAux s.data).map String.mk

/-- Truthiness of the Python expression `token.strip()`: true exactly when the
token contains a character that is not whitespace.  This is the predicate
`filter(str.strip, ...)` keeps tokens by. -/
def stripTruthy (s : String) : Bool := s.data.any (fun c => !(pyIsSpace c))

/-- Models the Python expression `slash.join(tokens)`. -/
def joinSlash : List String → String
  | [] => ""
  | [s] => s
  | s :: rest => s ++ "/" ++ joinSlash rest

/-- Models `OnedataRESTFS._split_space_path`.  The first argument is the
configured space (`self._space`); when it is set the path is space relative
and returned unchanged next to it.  Otherwise the relative path is split on
slashes, tokens whose `strip()` is falsy are dropped, and the result is the
head token paired with the join of the remaining tokens (`None` when there is
exactly one token); with no tokens `ResourceInvalid` is raised. -/
def split_space_path (space : Option String) (path : String) :
    Except FSErrorKind (String × Option String) :=
  let rpath := relpath path
  match space with
  | some s => Except.ok (s, some rpath)
  | none =>
    match (pySplitSlash rpath).filter stripTruthy with
    | [] => Except.error FSErrorKind.resourceInvalid
    | [t] => Except.ok (t, none)
    | t :: rest => Except.ok (t, some (joinSlash rest))

/-- The splitting rule exactly as the specification claim words it: only
empty components are discarded, the first non-empty component is the space
name and the remaining components are joined by slashes. -/
def claimSplitSpacePath (path : String) :
    Except FSErrorKind (String × Option String) :=
  match (pySplitSlash (relpath path)).filter (fun t => !(t == "")) with
  | [] => Except.error FSErrorKind.resourceInvalid
  | [t] => Except.ok (t, none)
  | t :: rest => Except.ok (t, some (joinSlash rest))

/-- The slash-separated components of the relative path that contain a
non-whitespace character. -/
def nonBlankTokens (path : String) : List String :=
  (pySplitSlash (relpath path)).filter stripTruthy

/-! ## Requests and the file handle (`OnedataRESTFile`) -/

/-- Permission mode of an open file handle (the fields of `fs.mode.Mode` the
source reads). -/
structure Mode where
  reading : Bool
  writing : Bool
  appending : Bool
  deriving DecidableEq, Repr

/-- The HTTP requests the client can issue, abstracted from their URLs.  For
the children listing, `tokenInURL` is the continuation token actually
included in the request URL (not the token the caller handed to `readdir`). -/
inductive Request where
  | getAttributes (spaceName : String) (fileId : String)
  | rangedGet (spaceName : String) (fileId : String) (rangeHeader : String)
  | putContent (spaceName : String) (fileId : String) (offset : Option Int) (data : List Nat)
  | lookupFileId (spaceName : String) (filePath : String)
  | listChildren (spaceName : String) (dirId : String) (tokenInURL : Option String)
  | deleteFile (spaceName : String) (filePath : Option String)
  deriving DecidableEq, Repr

/-- Whether a request changes remote state. -/
def Request.isMutating : Request → Bool
  | Request.putContent _ _ _ _ => true
  | Request.deleteFile _ _ => true
  | _ => false

/-- The Range header `OnedataFileClient.get_file_content` sends, built as the
source formats it: `bytes=` then the offset, a dash, and offset+size-1. -/
def range_header (offset size : Int) : String :=
  "bytes=" ++ toString offset ++ "-" ++ toString (offset + size - 1)

/-- Models `OnedataFileClient.get_file_content` called with an explicit file
id: the single ranged GET it issues. -/
def get_file_content_request (spaceName fileId : String) (offset size : Int) : Request :=
  Request.rangedGet spaceName fileId (range_header offset size)

/-- Models `OnedataFileClient.put_file_content`: a single PUT of the data at
the given offset (the offset is omitted from the URL when `None`). -/
def put_file_content_request (spaceName fileId : String) (offset : Option Int)
    (data : List Nat) : Request :=
  Request.putContent spaceName fileId offset data

/-- State of an `OnedataRESTFile` handle: the resolved space name and file
id, the permission mode, and the position cursor.  These are the only fields
the source mutates; everything else is re-fetched per call. -/
structure OnedataRESTFile where
  space_name : String
  file_id : String
  mode : Mode
  pos : Int
  deriving DecidableEq, Repr

/-- Models `OnedataRESTFile.__init__`: the handle starts at position 0 (the
class attribute), except that in appending mode the position is initialised
to the file size fetched from the provider via `get_attributes`.
`server_size` is the size the provider reports; the returned list holds the
requests issued during construction. -/
def fileInit (space_name file_id : String) (mode : Mode) (server_size : Nat) :
    OnedataRESTFile × List Request :=
  if mode.appending then
    ({ space_name := space_name, file_id := file_id, mode := mode,
       pos := (server_size : Int) },
     [Request.getAttributes space_name file_id])
  else
    ({ space_name := space_name, file_id := file_id, mode := mode, pos := 0 }, [])

/-- Models `OnedataRESTFile.read`.  `file_size` is the size the provider
reports for the fresh `get_attributes` call and `serverResp` the provider's
response to the ranged GET (its body, or an `OnedataRESTError`).  Returns the
outcome, the updated handle and the requests issued, in order. -/
def fileRead (f : OnedataRESTFile) (size : Int) (file_size : Nat)
    (serverResp : Except OnedataRESTError (List Nat)) :
    Except PyExn (List Nat) × OnedataRESTFile × List Request :=
  if !f.mode.reading then
    (Except.error (PyExn.ioError "File not open for reading"), f, [])
  else if size = 0 then (Except.ok [], f, [])
  else
    let attrReq := Request.getAttributes f.space_name f.file_id
    let size2 : Int := if size < 0 then (file_size : Int) else size
    let available_size : Int := min ((file_size : Int) - f.pos) size2
    if available_size ≤ 0 then (Except.ok [], f, [attrReq])
    else
      let req := get_file_content_request f.space_name f.file_id f.pos available_size
      match serverResp with
      | Except.ok data =>
        (Except.ok data, { f with pos := f.pos + data.length }, [attrReq, req])
      | Except.error e =>
        (Except.error (raiseTranslated (to_fserror e none)), f, [attrReq, req])

/-- Models `OnedataRESTFile.write`: on a handle not open for writing it
raises `IOError` and issues nothing; otherwise it issues a single PUT of the
data at the current position and advances the position by the length of the
data. -/
def fileWrite (f : OnedataRESTFile) (data : List Nat) :
    Except PyExn Unit × OnedataRESTFile × List Request :=
  if !f.mode.writing then
    (Except.error (PyExn.ioError "File not open for writing"), f, [])
  else
    (Except.ok (), { f with pos := f.pos + data.length },
     [put_file_content_request f.space_name f.file_id (some f.pos) data])

/-! ## File id lookup with retry (`OnedataFileClient.get_file_id`) -/

/-- Outcome of one attempt of the lookup request: either the HTTP layer
raises a read timeout, or the request succeeds and yields a file id. -/
inductive AttemptOutcome where
  | readTimeout
  | success (fileId : String)
  deriving DecidableEq, Repr

/-- Models the recursion of `OnedataFileClient.get_file_id`: `oracle i` is
the outcome of the i-th attempt (0-based), the first argument is the number
of retries still allowed.  A timeout with no retries left re-raises the
timeout (`Except.error ()`); a success returns the file id together with the
index of the attempt that succeeded. -/
def get_file_id_aux (oracle : Nat → AttemptOutcome) :
    Nat → Nat → Except Unit (String × Nat)
  | 0, attempt =>
    match oracle attempt with
    | AttemptOutcome.success fid => Except.ok (fid, attempt)
    | AttemptOutcome.readTimeout => Except.error ()
  | Nat.succ r, attempt =>
    match oracle attempt with
    | AttemptOutcome.success fid => Except.ok (fid, attempt)
    | AttemptOutcome.readTimeout => get_file_id_aux oracle r (attempt + 1)

/-- Models `OnedataFileClient.get_file_id` with its default of 3 retries. -/
def get_file_id (oracle : Nat → AttemptOutcome) : Except Unit (String × Nat) :=
  get_file_id_aux oracle 3 0

/-! ## Directory listing pagination (`OnedataRESTFS.listdir`) -/

/-- One page of a children listing response: the child names, whether the
server marked the page as last, and the continuation token for the next
page. -/
structure DirPage where
  children : List String
  isLast : Bool
  nextPageToken : Option String
  deriving DecidableEq, Repr

/-- Models `OnedataFileClient.readdir`: it accepts a `limit` and a
`continuation_token` parameter but builds the request URL
(`/data/.../children?attribute=size&attribute=name&attribute=type`) without
either of them, so the request carries no continuation token. -/
def readdir_request (spaceName dirId : String) (limit : Nat)
    (continuation_token : Option String) : Request :=
  Request.listChildren spaceName dirId none

/-- Models the `while True` pagination loop of `OnedataRESTFS.listdir`,
with explicit fuel; `none` means the loop did not terminate within the given
fuel.  `server` maps each issued request to the page the provider responds
with.  Each iteration calls `readdir` with the current continuation token,
appends the children names, stops when the page `isLast`, and otherwise
continues with the page's `nextPageToken`. -/
def listdir_loop (server : Request → DirPage) (spaceName dirId : String) :
    Nat → List String → Option String → Option (List String)
  | 0, _, _ => none
  | Nat.succ fuel, acc, token =>
    let res := server (readdir_request spaceName dirId 1000 token)
    let acc2 := acc ++ res.children
    if res.isLast then some acc2
    else listdir_loop server spaceName dirId fuel acc2 res.nextPageToken

/-- Modelled from the spec: the pagination loop as the claim describes it,
where each iteration fetches the page addressed by the current continuation
token (`pages` maps a token to the page the provider would serve for it).
This is what `listdir` would compute if `readdir` transmitted its
`continuation_token` parameter. -/
def listdir_loop_paginated (pages : Option String → DirPage) :
    Nat → List String → Option String → Option (List String)
  | 0, _, _ => none
  | Nat.succ fuel, acc, token =>
    let res := pages token
    let acc2 := acc ++ res.children
    if res.isLast then some acc2
    else listdir_loop_paginated pages fuel acc2 res.nextPageToken

/-- A two-page directory listing: the page served for an absent token is not
last and points at token `t1`; the page for token `t1` is last. -/
def twoPages : Option String → DirPage
  | none => { children := ["a"], isLast := false, nextPageToken := some "t1" }
  | some _ => { children := ["b"], isLast := true, nextPageToken := none }

/-- A provider serving `twoPages`, responding to a children-listing request
according to the continuation token present in its URL. -/
def twoPageServer (r : Request) : DirPage :=
  match r with
  | Request.listChildren _ _ tok => twoPages tok
  | _ => { children := [], isLast := true, nextPageToken := none }

/-! ## Space resolution and its caches (`OnedataFileClient`) -/

/-- Entry of the `spaces` section of the token capabilities: the space name
and the ids of the providers supporting the space. -/
structure SpaceInfo where
  name : String
  supports : List String
  deriving DecidableEq, Repr

/-- The token capabilities: spaces by space id, and provider domains by
provider id. -/
structure Capabilities where
  spaces : List (String × SpaceInfo)
  providers : List (String × String)
  deriving DecidableEq, Repr

/-- The capabilities hard-coded in `OnedataFileClient.get_token_capabilities`
(the source parses this fixed JSON document on every call). -/
def tokenCapabilities : Capabilities :=
  { spaces :=
      [("84af6570d3e133c7164e52594b368f22ch7d58",
        { name := "test01",
          supports := ["d8190b4632eccaeaf1f2128f267c4176che3cf"] }),
       ("03b1fdcdef49c3d013342c3a3ef9cbb8chfadd",
        { name := "test02",
          supports := ["d8190b4632eccaeaf1f2128f267c4176che3cf"] })],
    providers :=
      [("d8190b4632eccaeaf1f2128f267c4176che3cf",
        "dev-oneprovider-krakow.default.svc.cluster.local")] }

/-- The body of `get_space_id` (defined twice, identically, in the source;
the second definition shadows the first): iterate the spaces of the token
capabilities and return the id of the first space with the requested name,
or `None`. -/
def findSpaceId (space_name : String) : Option String :=
  match tokenCapabilities.spaces.find? (fun p => p.2.name == space_name) with
  | some p => some p.1
  | none => none

/-- Looks a space id up in the capabilities (`caps['spaces'][space_id]`). -/
def lookupSpaceInfo (sid : String) : Option SpaceInfo :=
  (tokenCapabilities.spaces.find? (fun p => p.1 == sid)).map (fun p => p.2)

/-- Looks a provider domain up in the capabilities
(`caps['providers'][provider_id]['domain']`). -/
def lookupProvider (pid : String) : Option String :=
  (tokenCapabilities.providers.find? (fun p => p.1 == pid)).map (fun p => p.2)

/-- The default `maxsize` of `functools.lru_cache`, which both `@lru_cache`
decorators in the source use. -/
def lruMaxsize : Nat := 128

/-- Cache lookup of `functools.lru_cache`, most recently used entry first: a
hit returns the cached value and moves the entry to the front. -/
def lruHit {α : Type} (cache : List (String × α)) (k : String) :
    Option (α × List (String × α)) :=
  match cache.find? (fun p => p.1 == k) with
  | some p => some (p.2, (k, p.2) :: cache.filter (fun q => !(q.1 == k)))
  | none => none

/-- Cache insertion of `functools.lru_cache` after a miss: the new entry goes
to the front and the least recently used entry is evicted when the cache
exceeds its maxsize. -/
def lruInsert {α : Type} (cache : List (String × α)) (k : String) (v : α) :
    List (String × α) :=
  ((k, v) :: cache).take lruMaxsize

/-- The mutable state of an `OnedataFileClient`: the two `@lru_cache` caches
and the stream of outcomes of future `random.choice` draws (each draw
consumes one number and uses it as an index).  The client object stores
nothing else that the embedded operations mutate. -/
structure ClientState where
  spaceIdCache : List (String × Option String)
  providerCache : List (String × String)
  rng : List Nat
  deriving DecidableEq, Repr

/-- A freshly constructed client: both caches empty. -/
def initialClientState : ClientState :=
  { spaceIdCache := [], providerCache := [], rng := [] }

/-- Result of a `get_space_id` call: the value, the updated client state and
whether the cached function body actually ran (false on a cache hit). -/
structure SpaceIdResult where
  value : Option String
  state : ClientState
  bodyRan : Bool
  deriving DecidableEq, Repr

/-- Models `OnedataFileClient.get_space_id` together with its `@lru_cache`
decorator. -/
def get_space_id (st : ClientState) (space_name : String) : SpaceIdResult :=
  match lruHit st.spaceIdCache space_name with
  | some (v, cache2) =>
    { value := v, state := { st with spaceIdCache := cache2 }, bodyRan := false }
  | none =>
    let v := findSpaceId space_name
    { value := v,
      state := { st with spaceIdCache := lruInsert st.spaceIdCache space_name v },
      bodyRan := true }

/-- Result of a `get_provider_for_space` call: the provider domain (or an
escaping `KeyError`/`IndexError`, modelled as `Except.error ()`), the updated
client state and whether the cached function body ran.  `lru_cache` caches
nothing when the body raises. -/
structure ProviderResult where
  value : Except Unit String
  state : ClientState
  bodyRan : Bool
  deriving Repr

/-- Models `OnedataFileClient.get_provider_for_space` together with its
`@lru_cache` decorator.  The body resolves the space id (through the cached
`get_space_id`), indexes the capabilities with it, draws a random provider id
from the supporting providers, and returns that provider's domain.  A `None`
or unknown space id, or an unknown provider id, raises a `KeyError`; an empty
supports dictionary makes `random.choice` raise `IndexError`. -/
def get_provider_for_space (st : ClientState) (space_name : String) : ProviderResult :=
  match lruHit st.providerCache space_name with
  | some (v, cache2) =>
    { value := Except.ok v, state := { st with providerCache := cache2 },
      bodyRan := false }
  | none =>
    let r1 := get_space_id st space_name
    match r1.value with
    | none => { value := Except.error (), state := r1.state, bodyRan := true }
    | some sid =>
      match lookupSpaceInfo sid with
      | none => { value := Except.error (), state := r1.state, bodyRan := true }
      | some info =>
        match info.supports with
        | [] => { value := Except.error (), state := r1.state, bodyRan := true }
        | p0 :: prest =>
          let r := r1.state.rng.headD 0
          let st2 := { r1.state with rng := r1.state.rng.tail }
          let pid := (p0 :: prest).getD (r % (p0 :: prest).length) ""
          match lookupProvider pid with
          | none => { value := Except.error (), state := st2, bodyRan := true }
          | some dom =>
            { value := Except.ok dom,
              state := { st2 with
                providerCache := lruInsert st2.providerCache space_name dom },
              bodyRan := true }

/-- The provider domain `get_provider_for_space` deterministically resolves a
space name to under the hard-coded capabilities (every space there is
supported by exactly one provider, so the random draw has a single possible
outcome); `none` when the body would raise. -/
def providerDomain (space_name : String) : Option String :=
  match findSpaceId space_name with
  | none => none
  | some sid =>
    match lookupSpaceInfo sid with
    | none => none
    | some info =>
      match info.supports with
      | [] => none
      | p0 :: _ => lookupProvider p0

/-- A call to one of the two cached resolution functions. -/
inductive ClientCall where
  | spaceId (name : String)
  | provider (name : String)
  deriving DecidableEq, Repr

/-- The space name a call is about. -/
def callName : ClientCall → String
  | ClientCall.spaceId n => n
  | ClientCall.provider n => n

/-- The client state after performing a call. -/
def stepCall (st : ClientState) : ClientCall → ClientState
  | ClientCall.spaceId n => (get_space_id st n).state
  | ClientCall.provider n => (get_provider_for_space st n).state

/-- The client state after performing a sequence of calls. -/
def runCalls (st : ClientState) : List ClientCall → ClientState
  | [] => st
  | c :: cs => runCalls (stepCall st c) cs

/-- 129 `get_space_id` calls with pairwise distinct space names. -/
def manySpaceCalls : List ClientCall :=
  (List.range 129).map (fun i => ClientCall.spaceId (Nat.repr i))

/-- Well-formedness of the space-id cache relative to a name universe S: the
keys are pairwise distinct names from S and every entry holds the value the
body computes for its key. -/
def spaceCacheGood (S : List String) (cache : List (String × Option String)) : Prop :=
  (cache.map Prod.fst).Nodup ∧ ∀ p ∈ cache, p.1 ∈ S ∧ p.2 = findSpaceId p.1

/-- Well-formedness of the provider cache relative to a name universe S. -/
def providerCacheGood (S : List String) (cache : List (String × String)) : Prop :=
  (cache.map Prod.fst).Nodup ∧ ∀ p ∈ cache, p.1 ∈ S ∧ some p.2 = providerDomain p.1

/-- Invariant of a client whose calls only used names from S: both caches
well formed, and every provider entry is backed by a space-id entry (the
provider body resolves the space id through the cached `get_space_id`). -/
def clientInv (S : List String) (st : ClientState) : Prop :=
  spaceCacheGood S st.spaceIdCache ∧ providerCacheGood S st.providerCache ∧
    ∀ p ∈ st.providerCache, (p.1, findSpaceId p.1) ∈ st.spaceIdCache

/-! ## Attributes and `getinfo` (`OnedataRESTFS.getinfo`) -/

/-- The attribute document the provider returns for a file (the fields
`getinfo` reads).  `hasName` records whether the response contains a `name`
key. -/
structure FileAttrs where
  hasName : Bool
  ftype : String
  atime : Int
  mtime : Int
  size : Int
  storage_user_id : Int
  storage_group_id : Int
  mode : Nat
  deriving DecidableEq, Repr

/-- The remote provider, as an oracle: `lookupId` answers the
`lookup-file-id` POST for a space name and path, `attrsOf` answers the
GET of `/data/` for a file id.  Either can fail with an
`OnedataRESTError`. -/
structure ServerOracle where
  lookupId : String → String → Except OnedataRESTError String
  attrsOf : String → Except OnedataRESTError FileAttrs

/-- The file id `OnedataFileClient.get_attributes` resolves a path to: the
space id itself when the path is `None` (Python formats a failed resolution
as the string None in the URL), and otherwise the provider's answer to the
file id lookup. -/
def resolve_attr_file_id (server : ServerOracle) (space_name : String)
    (file_path : Option String) : Except OnedataRESTError String :=
  match file_path with
  | none => Except.ok ((findSpaceId space_name).getD "None")
  | some p => server.lookupId space_name p

/-- Models `OnedataFileClient.get_attributes` for a path: resolve the file id
(by the space id, or by a fresh lookup request), then issue a fresh GET of
`/data/` for it.  The client stores none of the response; the only
state it keeps are the space caches modelled above, which hold no attribute
values.  Returns the provider's attribute response and the requests
issued. -/
def get_attributes (server : ServerOracle) (space_name : String)
    (file_path : Option String) :
    Except OnedataRESTError FileAttrs × List Request :=
  match file_path with
  | none =>
    (server.attrsOf ((findSpaceId space_name).getD "None"),
     [Request.getAttributes space_name ((findSpaceId space_name).getD "None")])
  | some p =>
    match server.lookupId space_name p with
    | Except.error e => (Except.error e, [Request.lookupFileId space_name p])
    | Except.ok fid =>
      (server.attrsOf fid,
       [Request.lookupFileId space_name p, Request.getAttributes space_name fid])

/-- The integer values of the `fs.enums.ResourceType` members `getinfo`
uses: unknown 0, directory 1, file 2, symlink 7.  The source starts from
unknown and overwrites for the types REG and LNK (file), DIR (directory) and
SYMLNK (symlink). -/
def resourceTypeInt (ftype : String) : Int :=
  if ftype = "REG" ∨ ftype = "LNK" then 2
  else if ftype = "DIR" then 1
  else if ftype = "SYMLNK" then 7
  else 0

/-- Models `fs.path.basename`: the part of the path after the last slash. -/
def basename (path : String) : String :=
  ((pySplitSlash path).getLast?).getD path

/-- The `basic` namespace of the info dictionary `getinfo` builds. -/
structure InfoBasic where
  name : String
  is_dir : Bool
  deriving DecidableEq, Repr

/-- The `details` namespace of the info dictionary `getinfo` builds. -/
structure InfoDetails where
  accessed : Int
  modified : Int
  size : Int
  uid : Int
  gid : Int
  rtype : Int
  deriving DecidableEq, Repr

/-- The `access` namespace of the info dictionary `getinfo` builds; the
`Permissions(mode=...).dump()` value is modelled by the mode bits it is
built from. -/
structure InfoAccess where
  uid : Int
  gid : Int
  permissions : Nat
  deriving DecidableEq, Repr

/-- The info dictionary `getinfo` returns. -/
structure Info where
  basic : InfoBasic
  details : InfoDetails
  access : InfoAccess
  deriving DecidableEq, Repr

/-- The info dictionary `getinfo` builds from a path and an attribute
response, exactly as the source fills the three namespaces. -/
def infoOfAttrs (path : String) (attr : FileAttrs) : Info :=
  { basic := { name := basename path, is_dir := attr.ftype == "DIR" },
    details := { accessed := attr.atime, modified := attr.mtime,
                 size := attr.size, uid := attr.storage_user_id,
                 gid := attr.storage_group_id,
                 rtype := resourceTypeInt attr.ftype },
    access := { uid := attr.storage_user_id, gid := attr.storage_group_id,
                permissions := attr.mode } }

/-- Models `OnedataRESTFS.getinfo`: split the path, fetch the attributes
with a fresh `get_attributes` call, translate an `OnedataRESTError` through
`raise to_fserror(e, path, get_attributes)`, raise `ResourceNotFound` when
the response has no `name` key, and otherwise build the info dictionary from
the attribute response of this very call.  No attribute value outlives the
call: the result is a function of the oracle's current answers alone. -/
def getinfo (server : ServerOracle) (space : Option String) (path : String) :
    Except PyExn Info × List Request :=
  match split_space_path space path with
  | Except.error k => (Except.error (PyExn.fsErr k), [])
  | Except.ok (space_name, file_path) =>
    match get_attributes server space_name file_path with
    | (Except.error e, reqs) =>
      (Except.error (raiseTranslated (to_fserror e (some "get_attributes"))), reqs)
    | (Except.ok attr, reqs) =>
      if !attr.hasName then
        (Except.error (PyExn.fsErr FSErrorKind.resourceNotFound), reqs)
      else (Except.ok (infoOfAttrs path attr), reqs)

/-- The number of bytes the read claim calls n: the requested size (the file
size when the requested size is negative) capped by what remains between the
position and the end of the file. -/
def readAmount (size : Int) (file_size : Nat) (pos : Int) : Int :=
  min (if size < 0 then (file_size : Int) else size) ((file_size : Int) - pos)

/-! ## Removal (`OnedataRESTFS.remove` and `OnedataRESTFS.removedir`) -/

/-- Models `OnedataFileClient.remove`: it fetches the attributes of the path
once more (discarding them) and then issues the DELETE request. -/
def client_remove (server : ServerOracle) (space_name : String)
    (file_path : Option String) : Except OnedataRESTError Unit × List Request :=
  match get_attributes server space_name file_path with
  | (Except.error e, reqs) => (Except.error e, reqs)
  | (Except.ok _, reqs) =>
    (Except.ok (), reqs ++ [Request.deleteFile space_name file_path])

/-- Models `OnedataRESTFS.remove`: fetch the info; a directory raises
`FileExpected` before any further request; otherwise delegate to the
client's remove. -/
def fs_remove (server : ServerOracle) (space : Option String) (path : String) :
    Except PyExn Unit × List Request :=
  match getinfo server space path with
  | (Except.error ex, reqs) => (Except.error ex, reqs)
  | (Except.ok info, reqs) =>
    if info.basic.is_dir then
      (Except.error (PyExn.fsErr FSErrorKind.fileExpected), reqs)
    else
      match split_space_path space path with
      | Except.error k => (Except.error (PyExn.fsErr k), reqs)
      | Except.ok (sn, fp) =>
        match client_remove server sn fp with
        | (Except.error e, reqs2) => (Except.error (PyExn.restError e), reqs ++ reqs2)
        | (Except.ok (), reqs2) => (Except.ok (), reqs ++ reqs2)

/-- Models `OnedataRESTFS.removedir`: identical to `remove` except that the
rejected case is a path that is not a directory — and the source raises
`FileExpected` there as well (not `DirectoryExpected`). -/
def fs_removedir (server : ServerOracle) (space : Option String) (path : String) :
    Except PyExn Unit × List Request :=
  match getinfo server space path with
  | (Except.error ex, reqs) => (Except.error ex, reqs)
  | (Except.ok info, reqs) =>
    if !info.basic.is_dir then
      (Except.error (PyExn.fsErr FSErrorKind.fileExpected), reqs)
    else
      match split_space_path space path with
      | Except.error k => (Except.error (PyExn.fsErr k), reqs)
      | Except.ok (sn, fp) =>
        match client_remove server sn fp with
        | (Except.error e, reqs2) => (Except.error (PyExn.restError e), reqs ++ reqs2)
        | (Except.ok (), reqs2) => (Except.ok (), reqs ++ reqs2)

/-! ## Concrete instances used to witness the theorems -/

/-- A read-only permission mode. -/
def modeRead : Mode := { reading := true, writing := false, appending := false }

/-- A write-and-append permission mode. -/
def modeAppend : Mode := { reading := false, writing := true, appending := true }

/-- A readable handle positioned at byte 2. -/
def witReadHandle : OnedataRESTFile :=
  { space_name := "s", file_id := "fid", mode := modeRead, pos := 2 }

/-- A writable appending handle positioned at byte 7. -/
def witAppendHandle : OnedataRESTFile :=
  { space_name := "s", file_id := "fid", mode := modeAppend, pos := 7 }

/-- A read-only handle positioned at byte 3. -/
def witReadOnlyHandle : OnedataRESTFile :=
  { space_name := "s", file_id := "fid", mode := modeRead, pos := 3 }

/-- Lookup outcomes where the first two attempts time out and every later
attempt succeeds. -/
def witOracle : Nat → AttemptOutcome :=
  fun i => if i < 2 then AttemptOutcome.readTimeout else AttemptOutcome.success "fid123"

/-- Attributes of a regular file. -/
def regAttrs : FileAttrs :=
  { hasName := true, ftype := "REG", atime := 1, mtime := 2, size := 3,
    storage_user_id := 4, storage_group_id := 5, mode := 420 }

/-- Attributes of a directory. -/
def dirAttrs : FileAttrs :=
  { hasName := true, ftype := "DIR", atime := 1, mtime := 2, size := 3,
    storage_user_id := 4, storage_group_id := 5, mode := 493 }

/-- A provider that resolves every path to the file id fidR, a regular
file. -/
def witServerReg : ServerOracle :=
  { lookupId := fun _ _ => Except.ok "fidR", attrsOf := fun _ => Except.ok regAttrs }

/-- A provider that resolves every path to the file id fidD, a directory. -/
def witServerDir : ServerOracle :=
  { lookupId := fun _ _ => Except.ok "fidD", attrsOf := fun _ => Except.ok dirAttrs }

/-- A provider on which every request fails with a bare HTTP 500 whose body
could not be parsed. -/
def witServer500 : ServerOracle :=
  { lookupId := fun _ _ => Except.error { http_code := 500, error_category := none, errno := none },
    attrsOf := fun _ => Except.error { http_code := 500, error_category := none, errno := none } }

/-! ## Theorems -/

/-- C2: for every `OnedataRESTError`, the error translation maps it to a
filesystem error exactly as the claim's table states, the rules applied in
the order listed (HTTP 404 to ResourceNotFound, HTTP 416 to a generic
FSError, then the posix errnos enoent/eexist/eaccess/eperm/enotdir with the
get_attributes exception for enotdir, then badValueFilePath to
InvalidCharsInPath). -/
theorem claim_C2_error_mapping (e : OnedataRESTError) (request : Option String) :
    to_fserror e request = specErrorMapping e request := by
  unfold to_fserror specErrorMapping
  by_cases h404 : e.http_code = 404
  · simp [h404]
  by_cases h416 : e.http_code = 416
  · simp [h404, h416]
  by_cases hpos : e.error_category = some "posix"
  · simp only [if_neg h404, if_neg h416, hpos, Option.some.injEq, reduceIte]
    cases e.errno with
    | none => rfl
    | some er =>
      by_cases h1 : er = "enoent"
      · simp [h1]
      by_cases h2 : er = "eexist"
      · simp [h1, h2]
      by_cases h3 : er = "eaccess"
      · simp [h1, h2, h3]
      by_cases h4 : er = "eperm"
      · simp [h1, h2, h3, h4]
      by_cases h5 : er = "enotdir"
      · by_cases h6 : request = some "get_attributes" <;>
          simp [h1, h2, h3, h4, h5, h6]
      · simp [h1, h2, h3, h4, h5]
  by_cases hbad : e.error_category = some "badValueFilePath"
  · simp [h404, h416, hpos, hbad]
  · simp [h404, h416, hpos, hbad]

/-- C9: an `OnedataRESTError` whose HTTP status is neither 404 nor 416 and
whose error category is neither posix nor badValueFilePath translates to
`None`, so a caller executing `raise to_fserror(e, ...)` — here
`OnedataRESTFS.getinfo` — raises `TypeError` instead of a filesystem
error. -/
theorem claim_C9_unmatched_error_raises_typeerror
    (e : OnedataRESTError) (request : Option String)
    (h404 : e.http_code ≠ 404) (h416 : e.http_code ≠ 416)
    (hcat : e.error_category ≠ some "posix")
    (hcat2 : e.error_category ≠ some "badValueFilePath")
    (server : ServerOracle) (space : Option String) (path : String)
    (sn fp : String)
    (hsplit : split_space_path space path = Except.ok (sn, some fp))
    (hlookup : server.lookupId sn fp = Except.error e) :
    to_fserror e request = Except.ok none ∧
    raiseTranslated (to_fserror e request) = PyExn.typeErr ∧
    (getinfo server space path).1 = Except.error PyExn.typeErr := by
  have hnone : ∀ req : Option String, to_fserror e req = Except.ok none := by
    intro req
    unfold to_fserror
    simp [h404, h416, hcat, hcat2]
  refine ⟨hnone request, by rw [hnone request]; rfl, ?_⟩
  unfold getinfo get_attributes
  rw [hsplit]
  simp only [hlookup]
  rw [hnone (some "get_attributes")]
  rfl

/-- C9 witness: a bare HTTP 500 response with no parseable body makes
`to_fserror` return `None` and `getinfo` fail with `TypeError`. -/
theorem claim_C9_witness :
    to_fserror { http_code := 500, error_category := none, errno := none } none =
      Except.ok none ∧
    raiseTranslated
      (to_fserror { http_code := 500, error_category := none, errno := none } none) =
      PyExn.typeErr ∧
    (getinfo witServer500 none "space1/f.txt").1 = Except.error PyExn.typeErr := by
  exact claim_C9_unmatched_error_raises_typeerror
    { http_code := 500, error_category := none, errno := none } none
    (by decide) (by decide) (by simp) (by simp)
    witServer500 none "space1/f.txt" "space1" "f.txt" rfl rfl

/-- C3 counterexample: on the path a/ /b (whose middle component is a
single space, hence non-empty), `_split_space_path` drops the whitespace-only
component and returns (a, b), while the claim's rule — keep every non-empty
component — yields (a, space-slash-b).  The claim is false at this input. -/
theorem claim_C3_counterexample :
    split_space_path none "a/ /b" = Except.ok ("a", some "b") ∧
    claimSplitSpacePath "a/ /b" = Except.ok ("a", some " /b") ∧
    ("b" : String) ≠ " /b" := by
  refine ⟨rfl, rfl, by decide⟩

/-- C3 amended: with no fixed space configured, `_split_space_path` keeps
exactly the slash-separated components containing a non-whitespace character
(Python's `filter(str.strip, ...)`): the first such component is the space
name and the remaining ones joined by slashes are the relative path; exactly
one such component yields (component, None); none raises ResourceInvalid. -/
theorem claim_C3_amended_split (path : String) :
    (split_space_path none path = Except.error FSErrorKind.resourceInvalid ↔
       nonBlankTokens path = []) ∧
    (∀ t, split_space_path none path = Except.ok (t, none) ↔
       nonBlankTokens path = [t]) ∧
    (∀ t r, split_space_path none path = Except.ok (t, some r) ↔
       ∃ rest, nonBlankTokens path = t :: rest ∧ rest ≠ [] ∧ r = joinSlash rest) := by
  unfold split_space_path nonBlankTokens
  cases h : (pySplitSlash (relpath path)).filter stripTruthy with
  | nil => simp [h]
  | cons t ts =>
    cases ts with
    | nil => simp [h]
    | cons t2 ts2 =>
      refine ⟨by simp [h], fun u => by simp [h], fun u r => ?_⟩
      simp only [h]
      constructor
      · intro hu
        rcases Prod.mk.injEq .. ▸ (Except.ok.injEq .. ▸ hu) with ⟨h1, h2⟩
        exact ⟨t2 :: ts2, by simp [h1], by simp, by simp [← Option.some.injEq, h2]⟩
      · rintro ⟨rest, hrest, hne, hr⟩
        obtain ⟨h1, h2⟩ : t = u ∧ t2 :: ts2 = rest := by
          constructor <;> [exact (List.cons.injEq .. ▸ hrest).1;
            exact (List.cons.injEq .. ▸ hrest).2]
        subst h1; subst h2; subst hr; rfl

/-- C1: on a handle open for reading, read(0) returns no data and issues no
request; for any other size the current file size is re-fetched, the amount
n is min(size, file_size - pos) with size replaced by file_size when
negative, nothing but the attribute request happens when n is not positive,
and otherwise a single ranged GET with header bytes=pos-(pos+n-1) is issued
and the position advances by exactly the number of bytes returned. -/
theorem claim_C1_read (f : OnedataRESTFile) (size : Int) (file_size : Nat)
    (data : List Nat) (hread : f.mode.reading = true) :
    fileRead f 0 file_size (Except.ok data) = (Except.ok [], f, []) ∧
    (size ≠ 0 →
      (readAmount size file_size f.pos ≤ 0 →
        fileRead f size file_size (Except.ok data) =
          (Except.ok [], f, [Request.getAttributes f.space_name f.file_id])) ∧
      (0 < readAmount size file_size f.pos →
        fileRead f size file_size (Except.ok data) =
          (Except.ok data, { f with pos := f.pos + (data.length : Int) },
           [Request.getAttributes f.space_name f.file_id,
            Request.rangedGet f.space_name f.file_id
              ("bytes=" ++ toString f.pos ++ "-" ++
               toString (f.pos + readAmount size file_size f.pos - 1))]))) := by
  have hmin : min ((file_size : Int) - f.pos) (if size < 0 then (file_size : Int) else size)
      = readAmount size file_size f.pos := by
    unfold readAmount; exact min_comm ..
  refine ⟨by simp [fileRead, hread], fun hsz => ⟨fun hle => ?_, fun hlt => ?_⟩⟩
  · simp only [fileRead, hread, Bool.not_true, Bool.false_eq_true, if_false, hmin,
      if_neg hsz, if_pos hle]
  · simp only [fileRead, hread, Bool.not_true, Bool.false_eq_true, if_false, hmin,
      if_neg hsz, if_neg (not_le.mpr hlt), get_file_content_request, range_header]

/-- C1 witness: a handle at position 2 on a 10-byte file, read of size 5:
the ranged GET covers bytes 2 to 6 and the position advances by the 3 bytes
the provider returned. -/
theorem claim_C1_read_witness :
    (5 : Int) ≠ 0 ∧ (0 : Int) < readAmount 5 10 2 ∧
    fileRead witReadHandle 5 10 (Except.ok [7, 8, 9]) =
      (Except.ok [7, 8, 9], { witReadHandle with pos := 5 },
       [Request.getAttributes "s" "fid",
        Request.rangedGet "s" "fid" "bytes=2-6"]) := by
  refine ⟨by decide, by decide, ?_⟩
  exact ((claim_C1_read witReadHandle 5 10 [7, 8, 9] rfl).2 (by decide)).2 (by decide)

/-- C7: opening in appending mode initialises the position to the size
fetched from the provider; write on a writable handle issues a single PUT of
the data at the current position and advances the position by the length of
the data; write on a non-writable handle raises IOError, issues nothing and
leaves the handle unchanged. -/
theorem claim_C7_append_and_write (sn fid : String) (m : Mode) (server_size : Nat)
    (f : OnedataRESTFile) (data : List Nat) :
    (m.appending = true →
      fileInit sn fid m server_size =
        ({ space_name := sn, file_id := fid, mode := m, pos := (server_size : Int) },
         [Request.getAttributes sn fid])) ∧
    (f.mode.writing = true →
      fileWrite f data =
        (Except.ok (), { f with pos := f.pos + (data.length : Int) },
         [Request.putContent f.space_name f.file_id (some f.pos) data])) ∧
    (f.mode.writing = false →
      fileWrite f data =
        (Except.error (PyExn.ioError "File not open for writing"), f, [])) := by
  refine ⟨fun ha => by simp [fileInit, ha],
    fun hw => by simp [fileWrite, put_file_content_request, hw],
    fun hnw => by simp [fileWrite, hnw]⟩

/-- C7 witness: an appending handle over a 7-byte file starts at position 7;
writing two bytes PUTs them at offset 7 and moves the position to 9; a
read-only handle rejects the write unchanged. -/
theorem claim_C7_witness :
    fileInit "s" "fid" modeAppend 7 =
      ({ space_name := "s", file_id := "fid", mode := modeAppend, pos := 7 },
       [Request.getAttributes "s" "fid"]) ∧
    fileWrite witAppendHandle [1, 2] =
      (Except.ok (), { witAppendHandle with pos := 9 },
       [Request.putContent "s" "fid" (some 7) [1, 2]]) ∧
    fileWrite witReadOnlyHandle [1, 2] =
      (Except.error (PyExn.ioError "File not open for writing"),
       witReadOnlyHandle, []) := by
  refine ⟨?_, ?_, ?_⟩
  · exact (claim_C7_append_and_write "s" "fid" modeAppend 7 witAppendHandle []).1 rfl
  · exact (claim_C7_append_and_write "s" "fid" modeAppend 7 witAppendHandle [1, 2]).2.1 rfl
  · exact (claim_C7_append_and_write "s" "fid" modeAppend 7 witReadOnlyHandle [1, 2]).2.2 rfl

/-- Helper: a success at attempt a+k after k timeouts, with at most r
retries remaining, makes `get_file_id_aux` return that file id and attempt
index. -/
theorem getFileIdAux_success (oracle : Nat → AttemptOutcome) :
    ∀ r a k fid, k ≤ r →
      (∀ j, j < k → oracle (a + j) = AttemptOutcome.readTimeout) →
      oracle (a + k) = AttemptOutcome.success fid →
      get_file_id_aux oracle r a = Except.ok (fid, a + k) := by
  intro r
  induction r with
  | zero =>
    intro a k fid hk hto hs
    have hk0 : k = 0 := Nat.le_zero.mp hk
    subst hk0
    simp only [get_file_id_aux]
    simp only [Nat.add_zero] at hs
    rw [hs]
    rfl
  | succ r ih =>
    intro a k fid hk hto hs
    cases k with
    | zero =>
      simp only [Nat.add_zero] at hs
      simp only [get_file_id_aux]
      rw [hs]
      rfl
    | succ k2 =>
      have h0 : oracle a = AttemptOutcome.readTimeout := by
        have := hto 0 (Nat.succ_pos k2)
        simpa using this
      simp only [get_file_id_aux]
      rw [h0]
      have hkk : k2 ≤ r := Nat.succ_le_succ_iff.mp hk
      have hres := ih (a + 1) k2 fid hkk
        (fun j hj => by
          have hx := hto (j + 1) (Nat.succ_lt_succ hj)
          have he : a + 1 + j = a + (j + 1) := by omega
          rw [he]; exact hx)
        (by
          have he : a + 1 + k2 = a + (k2 + 1) := by omega
          rw [he]; exact hs)
      rw [hres]
      have he : a + 1 + k2 = a + (k2 + 1) := by omega
      rw [he]

/-- Helper: when every attempt up to the remaining retry budget times out,
`get_file_id_aux` re-raises the timeout. -/
theorem getFileIdAux_timeout (oracle : Nat → AttemptOutcome) :
    ∀ r a, (∀ j, j ≤ r → oracle (a + j) = AttemptOutcome.readTimeout) →
      get_file_id_aux oracle r a = Except.error () := by
  intro r
  induction r with
  | zero =>
    intro a h
    have h0 : oracle a = AttemptOutcome.readTimeout := by
      have := h 0 (Nat.le_refl 0); simpa using this
    simp only [get_file_id_aux]
    rw [h0]
  | succ r ih =>
    intro a h
    have h0 : oracle a = AttemptOutcome.readTimeout := by
      have := h 0 (Nat.zero_le _); simpa using this
    simp only [get_file_id_aux]
    rw [h0]
    exact ih (a + 1) (fun j hj => by
      have hx := h (j + 1) (Nat.succ_le_succ hj)
      have he : a + 1 + j = a + (j + 1) := by omega
      rw [he]; exact hx)

/-- C6: `get_file_id` re-attempts the lookup after a read timeout up to 3
more times: when the first k attempts time out (k at most 3) and attempt k
succeeds, the file id of the successful attempt is returned; when all 4
attempts time out, the timeout is re-raised. -/
theorem claim_C6_get_file_id_retry (oracle : Nat → AttemptOutcome) :
    (∀ k fid, k ≤ 3 →
      (∀ j, j < k → oracle j = AttemptOutcome.readTimeout) →
      oracle k = AttemptOutcome.success fid →
      get_file_id oracle = Except.ok (fid, k)) ∧
    ((∀ j, j ≤ 3 → oracle j = AttemptOutcome.readTimeout) →
      get_file_id oracle = Except.error ()) := by
  constructor
  · intro k fid hk hto hs
    have h := getFileIdAux_success oracle 3 0 k fid hk
      (fun j hj => by simpa using hto j hj) (by simpa using hs)
    simpa [get_file_id] using h
  · intro h
    have h2 := getFileIdAux_timeout oracle 3 0 (fun j hj => by simpa using h j hj)
    simpa [get_file_id] using h2

/-- C6 witness: with the first two attempts timing out and the third
succeeding, `get_file_id` returns the file id of attempt 2. -/
theorem claim_C6_witness :
    (2 : Nat) ≤ 3 ∧ get_file_id witOracle = Except.ok ("fid123", 2) := by
  refine ⟨by decide, ?_⟩
  exact (claim_C6_get_file_id_retry witOracle).1 2 "fid123" (by decide)
    (by decide) (by rfl)

/-- C5: the claim fails on the code.  `readdir` drops the continuation token
(and limit) it is handed when building the request, so on a listing whose
first page is not last the loop refetches that same first page forever: for
every amount of fuel the loop fails to terminate, while the pagination the
claim describes (each iteration fetching the page for the current token)
returns the names of both pages. -/
theorem claim_C5_pagination_never_advances :
    (∀ fuel acc token,
      listdir_loop twoPageServer "space1" "dir1" fuel acc token = none) ∧
    listdir_loop_paginated twoPages 2 [] none = some ["a", "b"] := by
  constructor
  · intro fuel
    induction fuel with
    | zero => intro acc token; rfl
    | succ n ih =>
      intro acc token
      have hsrv : twoPageServer (readdir_request "space1" "dir1" 1000 token) =
          { children := ["a"], isLast := false, nextPageToken := some "t1" } := rfl
      simp only [listdir_loop, hsrv]
      exact ih (acc ++ ["a"]) (some "t1")
  · rfl

/-- Helper: evaluation of a successful `getinfo`: the result is the info
built from the attribute response of this very call, and the request trace
contains exactly one attributes GET. -/
theorem getinfo_eval (server : ServerOracle) (space : Option String) (path : String)
    (sn : String) (fp : Option String) (fid : String) (a : FileAttrs)
    (hsplit : split_space_path space path = Except.ok (sn, fp))
    (hres : resolve_attr_file_id server sn fp = Except.ok fid)
    (hattr : server.attrsOf fid = Except.ok a)
    (hname : a.hasName = true) :
    (getinfo server space path).1 = Except.ok (infoOfAttrs path a) ∧
    (getinfo server space path).2.count (Request.getAttributes sn fid) = 1 := by
  cases fp with
  | none =>
    have hfid : (findSpaceId sn).getD "None" = fid := by
      simpa [resolve_attr_file_id] using hres
    simp only [getinfo, get_attributes, hsplit, hfid, hattr]
    simp [hname, List.count_cons]
  | some p =>
    have hlook : server.lookupId sn p = Except.ok fid := by
      simpa [resolve_attr_file_id] using hres
    simp only [getinfo, get_attributes, hsplit, hlook, hattr]
    simp [hname, List.count_cons]

/-- C8: attributes are fetched per call and never cached.  The embedding of
the client and filesystem object holds no attribute field at all (the source
stores none), so `getinfo` is a function of the provider's current answers
alone: each call's request trace contains exactly one attributes GET, and
two successive calls — here against providers answering differently —
each return the info built from their own fresh response. -/
theorem claim_C8_attributes_not_cached
    (server server2 : ServerOracle) (space : Option String) (path : String)
    (sn : String) (fp : Option String) (fid fid2 : String) (a a2 : FileAttrs)
    (hsplit : split_space_path space path = Except.ok (sn, fp))
    (hres : resolve_attr_file_id server sn fp = Except.ok fid)
    (hattr : server.attrsOf fid = Except.ok a)
    (hname : a.hasName = true)
    (hres2 : resolve_attr_file_id server2 sn fp = Except.ok fid2)
    (hattr2 : server2.attrsOf fid2 = Except.ok a2)
    (hname2 : a2.hasName = true) :
    (getinfo server space path).1 = Except.ok (infoOfAttrs path a) ∧
    (getinfo server space path).2.count (Request.getAttributes sn fid) = 1 ∧
    (getinfo server2 space path).1 = Except.ok (infoOfAttrs path a2) ∧
    (getinfo server2 space path).2.count (Request.getAttributes sn fid2) = 1 := by
  obtain ⟨h1, h2⟩ := getinfo_eval server space path sn fp fid a hsplit hres hattr hname
  obtain ⟨h3, h4⟩ := getinfo_eval server2 space path sn fp fid2 a2 hsplit hres2 hattr2 hname2
  exact ⟨h1, h2, h3, h4⟩

/-- C8 witness: two calls on the same path against providers reporting
different attributes each fetch and reflect their own response. -/
theorem claim_C8_witness :
    (getinfo witServerReg none "space1/f.txt").1 =
      Except.ok (infoOfAttrs "space1/f.txt" regAttrs) ∧
    (getinfo witServerReg none "space1/f.txt").2.count
      (Request.getAttributes "space1" "fidR") = 1 ∧
    (getinfo witServerDir none "space1/f.txt").1 =
      Except.ok (infoOfAttrs "space1/f.txt" dirAttrs) ∧
    (getinfo witServerDir none "space1/f.txt").2.count
      (Request.getAttributes "space1" "fidD") = 1 := by
  exact claim_C8_attributes_not_cached witServerReg witServerDir none "space1/f.txt"
    "space1" (some "f.txt") "fidR" "fidD" regAttrs dirAttrs rfl rfl rfl rfl rfl rfl rfl

/-- Helper: `getinfo` only ever issues lookups and attribute GETs, never a
mutating request. -/
theorem getinfo_reqs_readonly (server : ServerOracle) (space : Option String)
    (path : String) :
    (getinfo server space path).2.all (fun r => !r.isMutating) = true := by
  cases hsp : split_space_path space path with
  | error k => simp [getinfo, hsp]
  | ok pr =>
    obtain ⟨sn, fp⟩ := pr
    cases fp with
    | none =>
      cases hattr : server.attrsOf ((findSpaceId sn).getD "None") with
      | error e =>
        simp [getinfo, get_attributes, hsp, hattr, Request.isMutating]
      | ok attr =>
        by_cases hn : attr.hasName = true <;>
          simp [getinfo, get_attributes, hsp, hattr, hn, Request.isMutating]
    | some p =>
      cases hlook : server.lookupId sn p with
      | error e =>
        simp [getinfo, get_attributes, hsp, hlook, Request.isMutating]
      | ok fid =>
        cases hattr : server.attrsOf fid with
        | error e =>
          simp [getinfo, get_attributes, hsp, hlook, hattr, Request.isMutating]
        | ok attr =>
          by_cases hn : attr.hasName = true <;>
            simp [getinfo, get_attributes, hsp, hlook, hattr, hn, Request.isMutating]

/-- C10: on an existing path that is not a directory, `removedir` raises
`FileExpected` (and not `DirectoryExpected`); on an existing directory,
`remove` raises `FileExpected`; in both rejection cases the only requests
issued are the read-only ones of the info fetch — no DELETE (or any other
mutating request) is sent. -/
theorem claim_C10_remove_guards (server : ServerOracle) (space : Option String)
    (path : String) (inf : Info) (reqs : List Request)
    (hinfo : getinfo server space path = (Except.ok inf, reqs)) :
    (inf.basic.is_dir = false →
      fs_removedir server space path =
        (Except.error (PyExn.fsErr FSErrorKind.fileExpected), reqs) ∧
      reqs.all (fun r => !r.isMutating) = true) ∧
    (inf.basic.is_dir = true →
      fs_remove server space path =
        (Except.error (PyExn.fsErr FSErrorKind.fileExpected), reqs) ∧
      reqs.all (fun r => !r.isMutating) = true) := by
  have hro : reqs.all (fun r => !r.isMutating) = true := by
    have h := getinfo_reqs_readonly server space path
    rw [hinfo] at h
    exact h
  constructor
  · intro hdir
    refine ⟨?_, hro⟩
    unfold fs_removedir
    rw [hinfo]
    simp [hdir]
  · intro hdir
    refine ⟨?_, hro⟩
    unfold fs_remove
    rw [hinfo]
    simp [hdir]

/-- C10 witness: `removedir` on a regular file and `remove` on a directory
both fail with `FileExpected`, with only read-only requests issued. -/
theorem claim_C10_witness :
    fs_removedir witServerReg none "space1/f.txt" =
      (Except.error (PyExn.fsErr FSErrorKind.fileExpected),
       [Request.lookupFileId "space1" "f.txt",
        Request.getAttributes "space1" "fidR"]) ∧
    fs_remove witServerDir none "space1/d" =
      (Except.error (PyExn.fsErr FSErrorKind.fileExpected),
       [Request.lookupFileId "space1" "d",
        Request.getAttributes "space1" "fidD"]) := by
  constructor
  · exact ((claim_C10_remove_guards witServerReg none "space1/f.txt"
      (infoOfAttrs "space1/f.txt" regAttrs)
      [Request.lookupFileId "space1" "f.txt", Request.getAttributes "space1" "fidR"]
      rfl).1 rfl).1
  · exact ((claim_C10_remove_guards witServerDir none "space1/d"
      (infoOfAttrs "space1/d" dirAttrs)
      [Request.lookupFileId "space1" "d", Request.getAttributes "space1" "fidD"]
      rfl).2 rfl).1

/-- Helper: in a cache with pairwise distinct keys, `find?` locates exactly
the entry of a present key. -/
theorem find?_key_of_mem {α : Type} {cache : List (String × α)} {k : String} {v : α}
    (hnd : (cache.map Prod.fst).Nodup) (hmem : (k, v) ∈ cache) :
    cache.find? (fun p => p.1 == k) = some (k, v) := by
  induction cache with
  | nil => cases hmem
  | cons p rest ih =>
    rcases List.mem_cons.mp hmem with h | h
    · subst h
      simp [List.find?]
    · have hk : k ∈ rest.map Prod.fst := List.mem_map.mpr ⟨(k, v), h, rfl⟩
      have hne : ¬(p.1 == k) = true := by
        intro hb
        have : p.1 = k := by simpa using hb
        have : p.1 ∈ rest.map Prod.fst := this ▸ hk
        exact (List.nodup_cons.mp (by simpa using hnd)).1 this
      simp only [List.find?, hne]
      exact ih (List.nodup_cons.mp (by simpa using hnd)).2 h

/-- Helper: `find?` misses an absent key. -/
theorem find?_key_of_not_mem {α : Type} {cache : List (String × α)} {k : String}
    (h : k ∉ cache.map Prod.fst) :
    cache.find? (fun p => p.1 == k) = none := by
  rw [List.find?_eq_none]
  intro p hp hb
  exact h (List.mem_map.mpr ⟨p, hp, by simpa using hb⟩)

/-- Helper: with pairwise distinct keys, the value of a key is unique. -/
theorem cache_val_unique {α : Type} {cache : List (String × α)} {k : String}
    {v1 v2 : α} (hnd : (cache.map Prod.fst).Nodup)
    (h1 : (k, v1) ∈ cache) (h2 : (k, v2) ∈ cache) : v1 = v2 := by
  have e1 := find?_key_of_mem hnd h1
  have e2 := find?_key_of_mem hnd h2
  rw [e1] at e2
  exact (Prod.mk.injEq .. ▸ (Option.some.injEq .. ▸ e2)).2

/-- Helper: a `get_space_id` cache hit — the cached value is returned, the
entry moves to the front, nothing else changes and the body does not run. -/
theorem get_space_id_hit {st : ClientState} {n : String} {v : Option String}
    (hnd : (st.spaceIdCache.map Prod.fst).Nodup)
    (hmem : (n, v) ∈ st.spaceIdCache) :
    get_space_id st n =
      { value := v,
        state := { st with spaceIdCache :=
          (n, v) :: st.spaceIdCache.filter (fun q => !(q.1 == n)) },
        bodyRan := false } := by
  unfold get_space_id lruHit
  rw [find?_key_of_mem hnd hmem]

/-- Helper: a `get_space_id` cache miss — the body runs and the computed
value is inserted. -/
theorem get_space_id_miss {st : ClientState} {n : String}
    (h : n ∉ st.spaceIdCache.map Prod.fst) :
    get_space_id st n =
      { value := findSpaceId n,
        state := { st with
          spaceIdCache := lruInsert st.spaceIdCache n (findSpaceId n) },
        bodyRan := true } := by
  unfold get_space_id lruHit
  rw [find?_key_of_not_mem h]

/-- Helper: `get_space_id` touches neither the provider cache nor the random
stream. -/
theorem get_space_id_frame (st : ClientState) (n : String) :
    (get_space_id st n).state.providerCache = st.providerCache ∧
    (get_space_id st n).state.rng = st.rng := by
  unfold get_space_id lruHit
  cases st.spaceIdCache.find? (fun p => p.1 == n) <;> simp

/-- Helper: a cache whose keys are distinct names drawn from a universe of
at most 128 names cannot be full while missing one of those names. -/
theorem cache_length_lt {α : Type} (S : List String) (hS : S.length ≤ 128)
    (cache : List (String × α)) (hnd : (cache.map Prod.fst).Nodup)
    (hsub : ∀ p ∈ cache, p.1 ∈ S) (n : String) (hn : n ∈ S)
    (hnot : n ∉ cache.map Prod.fst) : cache.length + 1 ≤ 128 := by
  have hkeysnd : (n :: cache.map Prod.fst).Nodup := List.nodup_cons.mpr ⟨hnot, hnd⟩
  have hsubS : ∀ x ∈ n :: cache.map Prod.fst, x ∈ S := by
    intro x hx
    rcases List.mem_cons.mp hx with h | h
    · subst h; exact hn
    · obtain ⟨p, hp, he⟩ := List.mem_map.mp h
      subst he; exact hsub p hp
  have h1 : (n :: cache.map Prod.fst).toFinset.card =
      (n :: cache.map Prod.fst).length := List.toFinset_card_of_nodup hkeysnd
  have h2 : (n :: cache.map Prod.fst).toFinset ⊆ S.toFinset := by
    intro x hx
    exact List.mem_toFinset.mpr (hsubS x (List.mem_toFinset.mp hx))
  have h3 := Finset.card_le_card h2
  have h4 : S.toFinset.card ≤ S.length := S.toFinset_card_le
  have h5 : (n :: cache.map Prod.fst).length = cache.length + 1 := by simp
  omega

/-- Helper: inserting into a cache that is not full evicts nothing. -/
theorem lruInsert_no_evict {α : Type} {cache : List (String × α)} {k : String}
    {v : α} (h : cache.length + 1 ≤ 128) : lruInsert cache k v = (k, v) :: cache := by
  unfold lruInsert lruMaxsize
  exact List.take_of_length_le (by simpa using h)

/-- Helper: keys of the front-moved cache stay pairwise distinct. -/
theorem moved_cache_nodup {α : Type} (cache : List (String × α)) (k : String) (v : α)
    (hnd : (cache.map Prod.fst).Nodup) :
    (((k, v) :: cache.filter (fun q => !(q.1 == k))).map Prod.fst).Nodup := by
  rw [List.map_cons, List.nodup_cons]
  constructor
  · intro hk
    obtain ⟨q, hq, he⟩ := List.mem_map.mp hk
    have := (List.mem_filter.mp hq).2
    rw [he] at this
    simp at this
  · exact hnd.sublist ((List.filter_sublist _).map Prod.fst)

/-- Helper: moving a present entry to the front preserves every entry of the
cache. -/
theorem moved_cache_mem {α : Type} {cache : List (String × α)} {k : String} {v : α}
    (hnd : (cache.map Prod.fst).Nodup) (hkv : (k, v) ∈ cache) :
    ∀ m w, (m, w) ∈ cache →
      (m, w) ∈ (k, v) :: cache.filter (fun q => !(q.1 == k)) := by
  intro m w hmw
  by_cases hm : m = k
  · subst hm
    have : w = v := cache_val_unique hnd hmw hkv
    subst this
    exact List.mem_cons_self ..
  · exact List.mem_cons_of_mem _ (List.mem_filter.mpr ⟨hmw, by simpa using hm⟩)

/-- Helper: entries of the front-moved cache come from the old cache. -/
theorem moved_cache_sub {α : Type} {cache : List (String × α)} {k : String} {v : α}
    (hkv : (k, v) ∈ cache) :
    ∀ q ∈ (k, v) :: cache.filter (fun p => !(p.1 == k)), q ∈ cache := by
  intro q hq
  rcases List.mem_cons.mp hq with h | h
  · subst h; exact hkv
  · exact (List.mem_filter.mp h).1

/-- Helper: the value `get_space_id` returns is always the body's value when
the cache is well formed. -/
theorem space_value_of_good {S : List String} {st : ClientState} {n : String}
    (hgood : spaceCacheGood S st.spaceIdCache) :
    (get_space_id st n).value = findSpaceId n := by
  by_cases hmem : n ∈ st.spaceIdCache.map Prod.fst
  · obtain ⟨p, hp, hpk⟩ := List.mem_map.mp hmem
    obtain ⟨k0, v0⟩ := p
    cases hpk
    rw [get_space_id_hit hgood.1 hp]
    exact (hgood.2 (k0, v0) hp).2
  · rw [get_space_id_miss hmem]

/-- Helper: every space of the hard-coded token capabilities is supported by
exactly one provider. -/
theorem supports_length_of_mem :
    ∀ q ∈ tokenCapabilities.spaces, q.2.supports.length = 1 := by decide

/-- Helper: a space found in the capabilities has a single supporting
provider. -/
theorem supports_of_lookup {sid : String} {info : SpaceInfo}
    (h : lookupSpaceInfo sid = some info) : info.supports.length = 1 := by
  unfold lookupSpaceInfo at h
  rcases Option.map_eq_some'.mp h with ⟨q, hfq, hq2⟩
  have hq := List.mem_of_find?_eq_some hfq
  rw [← hq2]
  exact supports_length_of_mem q hq

/-- Helper: a `get_provider_for_space` cache hit — the cached domain is
returned, the entry moves to the front, and the body does not run. -/
theorem get_provider_hit {st : ClientState} {n : String} {v : String}
    (hnd : (st.providerCache.map Prod.fst).Nodup)
    (hmem : (n, v) ∈ st.providerCache) :
    get_provider_for_space st n =
      { value := Except.ok v,
        state := { st with
          providerCache := (n, v) :: st.providerCache.filter (fun q => !(q.1 == n)) },
        bodyRan := false } := by
  unfold get_provider_for_space lruHit
  rw [find?_key_of_mem hnd hmem]

/-- Helper: a `get_provider_for_space` cache miss runs the body: the result
is the deterministic provider domain (or an escaping exception when there is
none), the space cache becomes the inner `get_space_id` call's cache, and
the domain — when there is one — is inserted into the provider cache. -/
theorem get_provider_miss {st : ClientState} {n : String}
    (hmiss : n ∉ st.providerCache.map Prod.fst)
    (hsv : (get_space_id st n).value = findSpaceId n) :
    (get_provider_for_space st n).bodyRan = true ∧
    (get_provider_for_space st n).state.spaceIdCache =
      (get_space_id st n).state.spaceIdCache ∧
    (providerDomain n = none →
      (get_provider_for_space st n).value = Except.error () ∧
      (get_provider_for_space st n).state.providerCache = st.providerCache) ∧
    (∀ d, providerDomain n = some d →
      (get_provider_for_space st n).value = Except.ok d ∧
      (get_provider_for_space st n).state.providerCache =
        lruInsert st.providerCache n d) := by
  have hlru : lruHit st.providerCache n = none := by
    unfold lruHit; rw [find?_key_of_not_mem hmiss]
  have hframe := get_space_id_frame st n
  cases hfs : findSpaceId n with
  | none =>
    have hpd : providerDomain n = none := by simp [providerDomain, hfs]
    have heval : get_provider_for_space st n =
        { value := Except.error (), state := (get_space_id st n).state,
          bodyRan := true } := by
      simp only [get_provider_for_space, hlru, hsv, hfs]
    refine ⟨by rw [heval], by rw [heval], fun _ => ⟨by rw [heval], ?_⟩,
      fun d hd => by simp [hpd] at hd⟩
    rw [heval]
    exact hframe.1
  | some sid =>
    cases hinfo : lookupSpaceInfo sid with
    | none =>
      have hpd : providerDomain n = none := by simp [providerDomain, hfs, hinfo]
      have heval : get_provider_for_space st n =
          { value := Except.error (), state := (get_space_id st n).state,
            bodyRan := true } := by
        simp only [get_provider_for_space, hlru, hsv, hfs, hinfo]
      refine ⟨by rw [heval], by rw [heval], fun _ => ⟨by rw [heval], ?_⟩,
        fun d hd => by simp [hpd] at hd⟩
      rw [heval]
      exact hframe.1
    | some info =>
      have hlen : info.supports.length = 1 := supports_of_lookup hinfo
      cases hsup : info.supports with
      | nil => rw [hsup] at hlen; simp at hlen
      | cons p0 prest =>
        have hprest : prest = [] := by
          rw [hsup] at hlen
          simpa using hlen
        subst hprest
        cases hprov : lookupProvider p0 with
        | none =>
          have hpd : providerDomain n = none := by
            simp [providerDomain, hfs, hinfo, hsup, hprov]
          have heval : get_provider_for_space st n =
              { value := Except.error (),
                state := { (get_space_id st n).state with
                  rng := (get_space_id st n).state.rng.tail },
                bodyRan := true } := by
            simp only [get_provider_for_space, hlru, hsv, hfs, hinfo, hsup,
              List.length_cons, List.length_nil, Nat.zero_add, Nat.mod_one,
              List.getD_cons_zero, hprov]
          refine ⟨by rw [heval], by rw [heval], fun _ => ⟨by rw [heval], ?_⟩,
            fun d hd => by simp [hpd] at hd⟩
          rw [heval]
          exact hframe.1
        | some dom =>
          have hpd : providerDomain n = some dom := by
            simp [providerDomain, hfs, hinfo, hsup, hprov]
          have heval : get_provider_for_space st n =
              { value := Except.ok dom,
                state := { (get_space_id st n).state with
                  rng := (get_space_id st n).state.rng.tail,
                  providerCache :=
                    lruInsert (get_space_id st n).state.providerCache n dom },
                bodyRan := true } := by
            simp only [get_provider_for_space, hlru, hsv, hfs, hinfo, hsup,
              List.length_cons, List.length_nil, Nat.zero_add, Nat.mod_one,
              List.getD_cons_zero, hprov]
          refine ⟨?_, ?_, ?_, ?_⟩
          · rw [heval]
          · rw [heval]
          · intro hc
            rw [hpd] at hc
            cases hc
          · intro d hd
            rw [hpd, Option.some.injEq] at hd
            subst hd
            refine ⟨?_, ?_⟩
            · rw [heval]
            · rw [heval]
              show lruInsert (get_space_id st n).state.providerCache n dom =
                lruInsert st.providerCache n dom
              rw [hframe.1]

/-- Helper: a `get_space_id` call from an invariant state preserves the
invariant, keeps every cached entry of both caches, and leaves the entry for
the called name in the space cache. -/
theorem get_space_id_step (S : List String) (hS : S.length ≤ 128) (st : ClientState)
    (hinv : clientInv S st) (n : String) (hn : n ∈ S) :
    clientInv S (get_space_id st n).state ∧
    (∀ m v, (m, v) ∈ st.spaceIdCache → (m, v) ∈ (get_space_id st n).state.spaceIdCache) ∧
    (∀ m v, (m, v) ∈ st.providerCache → (m, v) ∈ (get_space_id st n).state.providerCache) ∧
    (n, findSpaceId n) ∈ (get_space_id st n).state.spaceIdCache := by
  obtain ⟨⟨hnd, hent⟩, hprov, hcoup⟩ := hinv
  by_cases hmem : n ∈ st.spaceIdCache.map Prod.fst
  · obtain ⟨p, hp, hpk⟩ := List.mem_map.mp hmem
    obtain ⟨k0, v0⟩ := p
    cases hpk
    rw [get_space_id_hit hnd hp]
    have hv0 : v0 = findSpaceId k0 := (hent (k0, v0) hp).2
    refine ⟨⟨⟨moved_cache_nodup _ _ _ hnd, ?_⟩, hprov, ?_⟩, ?_, ?_, ?_⟩
    · intro q hq
      exact hent q (moved_cache_sub hp q hq)
    · intro q hq
      exact moved_cache_mem hnd hp _ _ (hcoup q hq)
    · intro m v hm
      exact moved_cache_mem hnd hp m v hm
    · intro m v hm
      exact hm
    · rw [hv0] at hp ⊢
      exact moved_cache_mem hnd (hv0 ▸ hp) _ _ (hv0 ▸ hp)
  · rw [get_space_id_miss hmem]
    have hlen := cache_length_lt S hS st.spaceIdCache hnd
      (fun p hp => (hent p hp).1) n hn hmem
    have hins : lruInsert st.spaceIdCache n (findSpaceId n) =
        (n, findSpaceId n) :: st.spaceIdCache := lruInsert_no_evict hlen
    rw [hins]
    refine ⟨⟨⟨?_, ?_⟩, hprov, ?_⟩, ?_, ?_, ?_⟩
    · rw [List.map_cons, List.nodup_cons]
      exact ⟨hmem, hnd⟩
    · intro q hq
      rcases List.mem_cons.mp hq with h | h
      · subst h; exact ⟨hn, rfl⟩
      · exact hent q h
    · intro q hq
      exact List.mem_cons_of_mem _ (hcoup q hq)
    · intro m v hm
      exact List.mem_cons_of_mem _ hm
    · intro m v hm
      exact hm
    · exact List.mem_cons_self ..

/-- Helper: a `get_provider_for_space` call from an invariant state preserves
the invariant, keeps every cached entry, leaves the space entry for the
called name, and caches the provider domain when there is one. -/
theorem get_provider_step (S : List String) (hS : S.length ≤ 128) (st : ClientState)
    (hinv : clientInv S st) (n : String) (hn : n ∈ S) :
    clientInv S (get_provider_for_space st n).state ∧
    (∀ m v, (m, v) ∈ st.spaceIdCache →
      (m, v) ∈ (get_provider_for_space st n).state.spaceIdCache) ∧
    (∀ m v, (m, v) ∈ st.providerCache →
      (m, v) ∈ (get_provider_for_space st n).state.providerCache) ∧
    (n, findSpaceId n) ∈ (get_provider_for_space st n).state.spaceIdCache ∧
    (∀ d, providerDomain n = some d →
      (n, d) ∈ (get_provider_for_space st n).state.providerCache) := by
  obtain ⟨⟨hnd, hent⟩, ⟨hpnd, hpent⟩, hcoup⟩ := hinv
  by_cases hmem : n ∈ st.providerCache.map Prod.fst
  · obtain ⟨p, hp, hpk⟩ := List.mem_map.mp hmem
    obtain ⟨k0, v0⟩ := p
    cases hpk
    rw [get_provider_hit hpnd hp]
    refine ⟨⟨⟨hnd, hent⟩, ⟨moved_cache_nodup _ _ _ hpnd, ?_⟩, ?_⟩, ?_, ?_, ?_, ?_⟩
    · intro q hq
      exact hpent q (moved_cache_sub hp q hq)
    · intro q hq
      exact hcoup q (moved_cache_sub hp q hq)
    · intro m v hm
      exact hm
    · intro m v hm
      exact moved_cache_mem hpnd hp m v hm
    · exact hcoup (k0, v0) hp
    · intro d hd
      have hv0 : v0 = d := by
        have hx := (hpent (k0, v0) hp).2
        rw [hd] at hx
        exact Option.some_inj.mp hx
      subst hv0
      exact List.mem_cons_self ..
  · have hsv : (get_space_id st n).value = findSpaceId n :=
      space_value_of_good (S := S) ⟨hnd, hent⟩
    have hm := get_provider_miss hmem hsv
    have hsstep := get_space_id_step S hS st ⟨⟨hnd, hent⟩, ⟨hpnd, hpent⟩, hcoup⟩ n hn
    obtain ⟨⟨⟨hnd2, hent2⟩, _, _⟩, hpersS, hpersP, hcreate⟩ := hsstep
    cases hpd : providerDomain n with
    | none =>
      obtain ⟨hvalE, hcacheE⟩ := hm.2.2.1 hpd
      refine ⟨⟨⟨?_, ?_⟩, ⟨?_, ?_⟩, ?_⟩, ?_, ?_, ?_, ?_⟩
      · rw [hm.2.1]; exact hnd2
      · rw [hm.2.1]; exact hent2
      · rw [hcacheE]; exact hpnd
      · rw [hcacheE]; exact hpent
      · intro q hq
        rw [hcacheE] at hq
        rw [hm.2.1]
        exact hpersS _ _ (hcoup q hq)
      · intro m v hmv
        rw [hm.2.1]
        exact hpersS m v hmv
      · intro m v hmv
        rw [hcacheE]
        exact hmv
      · rw [hm.2.1]
        exact hcreate
      · intro d hd
        cases hd
    | some d0 =>
      obtain ⟨hvalO, hcacheO⟩ := hm.2.2.2 d0 hpd
      have hplen := cache_length_lt S hS st.providerCache hpnd
        (fun p hp => (hpent p hp).1) n hn hmem
      have hins : lruInsert st.providerCache n d0 = (n, d0) :: st.providerCache :=
        lruInsert_no_evict hplen
      rw [hins] at hcacheO
      refine ⟨⟨⟨?_, ?_⟩, ⟨?_, ?_⟩, ?_⟩, ?_, ?_, ?_, ?_⟩
      · rw [hm.2.1]; exact hnd2
      · rw [hm.2.1]; exact hent2
      · rw [hcacheO, List.map_cons, List.nodup_cons]
        exact ⟨hmem, hpnd⟩
      · rw [hcacheO]
        intro q hq
        rcases List.mem_cons.mp hq with h | h
        · subst h; exact ⟨hn, hpd.symm⟩
        · exact hpent q h
      · rw [hcacheO, hm.2.1]
        intro q hq
        rcases List.mem_cons.mp hq with h | h
        · subst h; exact hcreate
        · exact hpersS _ _ (hcoup q h)
      · intro m v hmv
        rw [hm.2.1]
        exact hpersS m v hmv
      · intro m v hmv
        rw [hcacheO]
        exact List.mem_cons_of_mem _ hmv
      · rw [hm.2.1]
        exact hcreate
      · intro d hd
        have hdd : d0 = d := Option.some_inj.mp hd
        subst hdd
        rw [hcacheO]
        exact List.mem_cons_self ..

/-- Helper: one client call from an invariant state preserves the invariant
and keeps every cached entry. -/
theorem stepCall_keeps (S : List String) (hS : S.length ≤ 128) (st : ClientState)
    (hinv : clientInv S st) (c : ClientCall) (hc : callName c ∈ S) :
    clientInv S (stepCall st c) ∧
    (∀ m v, (m, v) ∈ st.spaceIdCache → (m, v) ∈ (stepCall st c).spaceIdCache) ∧
    (∀ m v, (m, v) ∈ st.providerCache → (m, v) ∈ (stepCall st c).providerCache) := by
  cases c with
  | spaceId n =>
    have h := get_space_id_step S hS st hinv n hc
    exact ⟨h.1, h.2.1, h.2.2.1⟩
  | provider n =>
    have h := get_provider_step S hS st hinv n hc
    exact ⟨h.1, h.2.1, h.2.2.1⟩

/-- Helper: a call about the name n leaves the space entry for n in the
cache, and a provider call caches the provider domain when there is one. -/
theorem stepCall_creates (S : List String) (hS : S.length ≤ 128) (st : ClientState)
    (hinv : clientInv S st) (n : String) (hn : n ∈ S) :
    (n, findSpaceId n) ∈ (stepCall st (ClientCall.spaceId n)).spaceIdCache ∧
    (n, findSpaceId n) ∈ (stepCall st (ClientCall.provider n)).spaceIdCache ∧
    (∀ d, providerDomain n = some d →
      (n, d) ∈ (stepCall st (ClientCall.provider n)).providerCache) := by
  have h1 := get_space_id_step S hS st hinv n hn
  have h2 := get_provider_step S hS st hinv n hn
  exact ⟨h1.2.2.2, h2.2.2.2.1, h2.2.2.2.2⟩

/-- Helper: running a sequence of calls decomposes through appending. -/
theorem runCalls_append (xs ys : List ClientCall) :
    ∀ st, runCalls st (xs ++ ys) = runCalls (runCalls st xs) ys := by
  induction xs with
  | nil => intro st; rfl
  | cons c cs ih => intro st; exact ih (stepCall st c)

/-- Helper: a call sequence over at most 128 names preserves the invariant
and keeps every cached entry. -/
theorem runCalls_keeps (S : List String) (hS : S.length ≤ 128) :
    ∀ (calls : List ClientCall) (st : ClientState), clientInv S st →
      (∀ c, c ∈ calls → callName c ∈ S) →
      clientInv S (runCalls st calls) ∧
      (∀ m v, (m, v) ∈ st.spaceIdCache → (m, v) ∈ (runCalls st calls).spaceIdCache) ∧
      (∀ m v, (m, v) ∈ st.providerCache → (m, v) ∈ (runCalls st calls).providerCache) := by
  intro calls
  induction calls with
  | nil => intro st hinv _; exact ⟨hinv, fun m v h => h, fun m v h => h⟩
  | cons c cs ih =>
    intro st hinv h
    have hc : callName c ∈ S := h c (List.mem_cons_self ..)
    have hstep := stepCall_keeps S hS st hinv c hc
    have hrest := ih (stepCall st c) hstep.1 (fun x hx => h x (List.mem_cons_of_mem _ hx))
    exact ⟨hrest.1, fun m v hm => hrest.2.1 m v (hstep.2.1 m v hm),
      fun m v hm => hrest.2.2 m v (hstep.2.2 m v hm)⟩

/-- Helper: the invariant holds for a freshly constructed client. -/
theorem initial_clientInv (S : List String) : clientInv S initialClientState := by
  refine ⟨⟨?_, ?_⟩, ⟨?_, ?_⟩, ?_⟩ <;> simp [initialClientState]

/-- Helper: after a call sequence from the fresh client that mentions the
name n (as a space-id or provider call), the space entry for n is cached; a
provider call also caches the provider domain when there is one. -/
theorem entries_after_calls (S : List String) (hS : S.length ≤ 128)
    (calls : List ClientCall) (hcalls : ∀ c, c ∈ calls → callName c ∈ S)
    (n : String) (hn : n ∈ S) :
    clientInv S (runCalls initialClientState calls) ∧
    ((ClientCall.spaceId n ∈ calls ∨ ClientCall.provider n ∈ calls) →
      (n, findSpaceId n) ∈ (runCalls initialClientState calls).spaceIdCache) ∧
    (∀ d, providerDomain n = some d → ClientCall.provider n ∈ calls →
      (n, d) ∈ (runCalls initialClientState calls).providerCache) := by
  refine ⟨(runCalls_keeps S hS calls initialClientState (initial_clientInv S) hcalls).1,
    ?_, ?_⟩
  · intro hc
    have hsplit : ∃ c, (c = ClientCall.spaceId n ∨ c = ClientCall.provider n) ∧
        ∃ pre suf, calls = pre ++ c :: suf := by
      rcases hc with h | h
      · exact ⟨ClientCall.spaceId n, Or.inl rfl, List.append_of_mem h⟩
      · exact ⟨ClientCall.provider n, Or.inr rfl, List.append_of_mem h⟩
    obtain ⟨c, hcn, pre, suf, hdecomp⟩ := hsplit
    subst hdecomp
    have hpre : ∀ x, x ∈ pre → callName x ∈ S := fun x hx =>
      hcalls x (List.mem_append_left _ hx)
    have hsuf : ∀ x, x ∈ suf → callName x ∈ S := fun x hx =>
      hcalls x (List.mem_append_right _ (List.mem_cons_of_mem _ hx))
    have hinv1 := (runCalls_keeps S hS pre initialClientState
      (initial_clientInv S) hpre).1
    have hcr := stepCall_creates S hS (runCalls initialClientState pre) hinv1 n hn
    have hmemstep : (n, findSpaceId n) ∈
        (stepCall (runCalls initialClientState pre) c).spaceIdCache := by
      rcases hcn with h | h
      · subst h; exact hcr.1
      · subst h; exact hcr.2.1
    have hstepinv := stepCall_keeps S hS (runCalls initialClientState pre) hinv1 c
      (by rcases hcn with h | h <;> (subst h; exact hn))
    have hfin := runCalls_keeps S hS suf
      (stepCall (runCalls initialClientState pre) c) hstepinv.1 hsuf
    rw [runCalls_append]
    show (n, findSpaceId n) ∈
      (runCalls (stepCall (runCalls initialClientState pre) c) suf).spaceIdCache
    exact hfin.2.1 n (findSpaceId n) hmemstep
  · intro d hd hc
    obtain ⟨pre, suf, hdecomp⟩ := List.append_of_mem hc
    subst hdecomp
    have hpre : ∀ x, x ∈ pre → callName x ∈ S := fun x hx =>
      hcalls x (List.mem_append_left _ hx)
    have hsuf : ∀ x, x ∈ suf → callName x ∈ S := fun x hx =>
      hcalls x (List.mem_append_right _ (List.mem_cons_of_mem _ hx))
    have hinv1 := (runCalls_keeps S hS pre initialClientState
      (initial_clientInv S) hpre).1
    have hcr := stepCall_creates S hS (runCalls initialClientState pre) hinv1 n hn
    have hstepinv := stepCall_keeps S hS (runCalls initialClientState pre) hinv1
      (ClientCall.provider n) hn
    have hfin := runCalls_keeps S hS suf
      (stepCall (runCalls initialClientState pre) (ClientCall.provider n))
      hstepinv.1 hsuf
    rw [runCalls_append]
    show (n, d) ∈ (runCalls
      (stepCall (runCalls initialClientState pre) (ClientCall.provider n))
      suf).providerCache
    exact hfin.2.2 n d (hcr.2.2 d hd)

/-- C4 amended: the space id and provider host are cached per client by the
two lru_cache decorators (capacity 128 each): as long as every space name
queried is drawn from at most 128 distinct names, a later `get_space_id` or
`get_provider_for_space` call with a name already called returns the same
value the first call computed, without running the cached body again; the
first call from a fresh client computes that same value. -/
theorem claim_C4_amended_caching (S : List String) (calls : List ClientCall)
    (n : String) (hS : S.length ≤ 128)
    (hcalls : ∀ c, c ∈ calls → callName c ∈ S) (hn : n ∈ S) :
    (get_space_id initialClientState n).value = findSpaceId n ∧
    ((ClientCall.spaceId n ∈ calls ∨ ClientCall.provider n ∈ calls) →
      (get_space_id (runCalls initialClientState calls) n).bodyRan = false ∧
      (get_space_id (runCalls initialClientState calls) n).value = findSpaceId n) ∧
    (∀ d, providerDomain n = some d →
      (get_provider_for_space initialClientState n).value = Except.ok d ∧
      (ClientCall.provider n ∈ calls →
        (get_provider_for_space (runCalls initialClientState calls) n).bodyRan = false ∧
        (get_provider_for_space (runCalls initialClientState calls) n).value =
          Except.ok d)) := by
  obtain ⟨hinvF, hspaceF, hprovF⟩ := entries_after_calls S hS calls hcalls n hn
  refine ⟨space_value_of_good (S := S) (initial_clientInv S).1, ?_, ?_⟩
  · intro hc
    have hmem := hspaceF hc
    rw [get_space_id_hit hinvF.1.1 hmem]
    exact ⟨rfl, rfl⟩
  · intro d hd
    constructor
    · have hmiss : n ∉ initialClientState.providerCache.map Prod.fst := by
        simp [initialClientState]
      have hsv : (get_space_id initialClientState n).value = findSpaceId n :=
        space_value_of_good (S := S) (initial_clientInv S).1
      exact ((get_provider_miss hmiss hsv).2.2.2 d hd).1
    · intro hc
      have hmem := hprovF d hd hc
      rw [get_provider_hit hinvF.2.1.1 hmem]
      exact ⟨rfl, rfl⟩

set_option maxRecDepth 10000

/-- C4 counterexample: the lru_cache decorating `get_space_id` has the
default capacity of 128, so after resolving 129 distinct space names the
entry of the first name has been evicted, and a later call with that name —
"0", which was among the earlier calls — runs the lookup body again instead
of answering from the cache.  This refutes "resolved at most once per
client ... for the lifetime of the client". -/
theorem claim_C4_counterexample :
    ClientCall.spaceId "0" ∈ manySpaceCalls ∧
    (get_space_id (runCalls initialClientState manySpaceCalls) "0").bodyRan = true := by
  constructor
  · exact List.mem_map.mpr ⟨0, by decide, rfl⟩
  · decide

/-- C4 witness: with a single space name in play the caches work as the
amended claim states: after one `get_space_id` and one
`get_provider_for_space` call for the space test01 of the hard-coded
capabilities, repeated calls answer from the caches without running the
bodies, returning the same space id and provider domain the first calls
computed. -/
theorem claim_C4_witness :
    (get_space_id (runCalls initialClientState
      [ClientCall.spaceId "test01", ClientCall.provider "test01"]) "test01").bodyRan
        = false ∧
    (get_space_id (runCalls initialClientState
      [ClientCall.spaceId "test01", ClientCall.provider "test01"]) "test01").value
        = findSpaceId "test01" ∧
    (get_provider_for_space (runCalls initialClientState
      [ClientCall.spaceId "test01", ClientCall.provider "test01"]) "test01").bodyRan
        = false ∧
    (get_provider_for_space (runCalls initialClientState
      [ClientCall.spaceId "test01", ClientCall.provider "test01"]) "test01").value
        = Except.ok "dev-oneprovider-krakow.default.svc.cluster.local" := by
  have h := claim_C4_amended_caching ["test01"]
    [ClientCall.spaceId "test01", ClientCall.provider "test01"] "test01"
    (by decide) (by decide) (by decide)
  have h2 := h.2.1 (Or.inl (by decide))
  have h3 := h.2.2 "dev-oneprovider-krakow.default.svc.cluster.local" (by rfl)
  exact ⟨h2.1, h2.2, (h3.2 (by decide)).1, (h3.2 (by decide)).2⟩

end OnedataRestFS
